import Mathlib

/-!
Verification of the core logic of the bus-stop-api repository:

* the sliding-window rate limiter of `src/utils/rate_limit.py`;
* the nearby-stop queries of `src/controllers/bus_stop_controller.py`
  (reference-point resolution, haversine distance computed in SQL,
  distance ordering, limit truncation and the radius post-filter).

Timestamps (Python `time.time()` floats) are modelled as rationals;
coordinates and distances (floats handed to DuckDB's trigonometry)
are modelled as real numbers.
-/

namespace BusStopApi

/-! ## Rate limiter: `src/utils/rate_limit.py`

`REQUESTS` is a `defaultdict(list)` keyed by client id: an unseen client
maps to the empty list.  `rate_limiter` reads the clock, prunes the
client's list, and either rejects (length at the cap) or appends `now`. -/

/-- The `REQUESTS` mapping: client id to recorded timestamps. -/
abbrev RLState := String → List ℚ

/-- The initial `REQUESTS` map: every client unseen. -/
def emptyState : RLState := fun _ => []

/-- `rate_limiter(client_id)` of `src/utils/rate_limit.py`, with the clock
reading `now` and the module constants `MAX_REQUESTS` / `WINDOW_SECONDS`
passed explicitly.  The body mirrors the Python source: compute
`window_start`, reassign the client's list to the timestamps strictly
greater than `window_start`, reject when the pruned length is at least
`MAX_REQUESTS`, otherwise append `now` and admit. -/
def rate_limiter (MAX_REQUESTS : ℕ) (WINDOW_SECONDS : ℚ) (now : ℚ)
    (client_id : String) (s : RLState) : Bool × RLState :=
  let window_start := now - WINDOW_SECONDS
  let kept := (s client_id).filter (fun t => window_start < t)
  if MAX_REQUESTS ≤ kept.length then
    (false, Function.update s client_id kept)
  else
    (true, Function.update s client_id (kept ++ [now]))

/-- Run a sequence of calls `(now, client_id)` from a starting state,
collecting the boolean results and the final `REQUESTS` map. -/
def runResults (MAX : ℕ) (W : ℚ) : List (ℚ × String) → RLState → List Bool × RLState
  | [], s => ([], s)
  | c :: rest, s =>
    let r := rate_limiter MAX W c.1 c.2 s
    let rr := runResults MAX W rest r.2
    (r.1 :: rr.1, rr.2)

/-- The `REQUESTS` map after a sequence of calls. -/
def runCalls (MAX : ℕ) (W : ℚ) (calls : List (ℚ × String)) (s : RLState) : RLState :=
  (runResults MAX W calls s).2

/-- The invariant carried across calls: every client's list is sorted
(non-decreasing), holds at most `MAX` entries, and every entry is a clock
reading at most `a`. -/
def RLInv (MAX : ℕ) (a : ℚ) (s : RLState) : Prop :=
  ∀ c, (s c).Sorted (· ≤ ·) ∧ (s c).length ≤ MAX ∧ ∀ t ∈ s c, t ≤ a

/-- `rate_limiter` with its local bindings expanded, for case splitting. -/
theorem rate_limiter_eq (MAX : ℕ) (W now : ℚ) (c : String) (s : RLState) :
    rate_limiter MAX W now c s =
      if MAX ≤ ((s c).filter (fun t => now - W < t)).length then
        (false, Function.update s c ((s c).filter (fun t => now - W < t)))
      else
        (true, Function.update s c (((s c).filter (fun t => now - W < t)) ++ [now])) :=
  rfl

theorem runCalls_nil (MAX : ℕ) (W : ℚ) (s : RLState) :
    runCalls MAX W [] s = s := rfl

theorem runCalls_cons (MAX : ℕ) (W : ℚ) (x : ℚ × String)
    (rest : List (ℚ × String)) (s : RLState) :
    runCalls MAX W (x :: rest) s = runCalls MAX W rest (rate_limiter MAX W x.1 x.2 s).2 := rfl

theorem RLInv.mono {MAX : ℕ} {a b : ℚ} {s : RLState} (h : RLInv MAX a s)
    (hab : a ≤ b) : RLInv MAX b s :=
  fun c => ⟨(h c).1, (h c).2.1, fun t ht => le_trans ((h c).2.2 t ht) hab⟩

theorem RLInv.empty (MAX : ℕ) (a : ℚ) : RLInv MAX a emptyState := by
  intro c
  simp [emptyState]

theorem RLInv.step {MAX : ℕ} {W a now : ℚ} {s : RLState} (h : RLInv MAX a s)
    (ha : a ≤ now) (c : String) :
    RLInv MAX now (rate_limiter MAX W now c s).2 := by
  intro c'
  rw [rate_limiter_eq]
  by_cases hc : c' = c
  · subst hc
    rcases h c' with ⟨hsort', hlen', hle'⟩
    split
    · simp only [Function.update_same]
      refine ⟨hsort'.filter _, ?_, ?_⟩
      · exact le_trans (List.length_filter_le _ _) hlen'
      · intro t ht
        exact le_trans (hle' t (List.mem_of_mem_filter ht)) ha
    · simp only [Function.update_same]
      rename_i hlt
      push_neg at hlt
      constructor
      · refine List.pairwise_append.2 ⟨hsort'.filter _, List.sorted_singleton now, ?_⟩
        intro x hx y hy
        rw [List.mem_singleton] at hy
        subst hy
        exact le_trans (hle' x (List.mem_of_mem_filter hx)) ha
      constructor
      · rw [List.length_append, List.length_singleton]
        omega
      · intro t ht
        rcases List.mem_append.1 ht with ht | ht
        · exact le_trans (hle' t (List.mem_of_mem_filter ht)) ha
        · rw [List.mem_singleton] at ht
          exact ht ▸ le_refl now
  · rcases h c' with ⟨hsort', hlen', hle'⟩
    split
    · simp only [Function.update_noteq hc]
      exact ⟨hsort', hlen', fun t ht => le_trans (hle' t ht) ha⟩
    · simp only [Function.update_noteq hc]
      exact ⟨hsort', hlen', fun t ht => le_trans (hle' t ht) ha⟩

/-- Invariant preservation along a call sequence whose clock readings are
non-decreasing and start no earlier than `a`. -/
theorem RLInv.runCalls {MAX : ℕ} {W : ℚ} :
    ∀ (calls : List (ℚ × String)) {s : RLState} {a final : ℚ},
      RLInv MAX a s → (calls.map Prod.fst ++ [final]).Chain' (· ≤ ·) →
      (∀ y ∈ (calls.map Prod.fst ++ [final]).head?, a ≤ y) →
      RLInv MAX final (runCalls MAX W calls s)
  | [], s, a, final, h, _, hhead => by
    rw [runCalls_nil]
    exact h.mono (by simpa using hhead)
  | (t, c) :: rest, s, a, final, h, hchain, hhead => by
    have hat : a ≤ t := by simpa using hhead
    have hchain₀ : ((rest.map Prod.fst ++ [final]).Chain' (· ≤ ·)) ∧
        ∀ y ∈ (rest.map Prod.fst ++ [final]).head?, t ≤ y := by
      have := List.chain'_cons'.1 (by simpa using hchain)
      exact ⟨this.2, this.1⟩
    have hstep := RLInv.step (W := W) h hat c
    rw [runCalls_cons]
    exact RLInv.runCalls rest hstep hchain₀.1 hchain₀.2

/-! ## Claims about the rate limiter -/

/-- C1: a `rate_limiter(client_id)` call with clock reading `now` keeps for
the client exactly the recorded timestamps `t` with `t > now - WINDOW_SECONDS`
(one equal to the window start is dropped); when at least `MAX_REQUESTS`
remain it returns `false` without appending `now`, otherwise it appends `now`
and returns `true`; and with `MAX_REQUESTS = 3`, `WINDOW_SECONDS = 60`, four
sequential calls for one client at the same instant return
`[true, true, true, false]`. -/
theorem claim_C1 (MAX : ℕ) (W now : ℚ) (c : String) (s : RLState) (t0 : ℚ) :
    (∀ t, t ∈ (s c).filter (fun t => now - W < t) ↔ t ∈ s c ∧ now - W < t) ∧
    (MAX ≤ ((s c).filter (fun t => now - W < t)).length →
      rate_limiter MAX W now c s =
        (false, Function.update s c ((s c).filter (fun t => now - W < t)))) ∧
    (((s c).filter (fun t => now - W < t)).length < MAX →
      rate_limiter MAX W now c s =
        (true, Function.update s c ((s c).filter (fun t => now - W < t) ++ [now]))) ∧
    (runResults 3 60 [(t0, "x"), (t0, "x"), (t0, "x"), (t0, "x")] emptyState).1
      = [true, true, true, false] := by
  refine ⟨?_, ?_, ?_, ?_⟩
  · intro t
    simp [List.mem_filter]
  · intro hge
    rw [rate_limiter_eq, if_pos hge]
  · intro hlt
    rw [rate_limiter_eq, if_neg (by omega)]
  · have h : t0 - 60 < t0 := by linarith
    simp [runResults, rate_limiter, emptyState, Function.update, List.filter, h]

/-- C2: starting from the empty `REQUESTS` map, after any sequence of
`rate_limiter` calls with non-decreasing clock readings followed by a call
for client `c` at reading `now`, the client's retained list is ascending
(non-decreasing), holds at most `MAX_REQUESTS` entries, every retained entry
satisfies `t > now - WINDOW_SECONDS`, and the call is admitted iff fewer than
`MAX_REQUESTS` of the client's previously recorded timestamps satisfy
`t > now - WINDOW_SECONDS`. -/
theorem claim_C2 (MAX : ℕ) (W : ℚ) (pre : List (ℚ × String)) (now : ℚ) (c : String)
    (hW : 0 < W) (hchain : (pre.map Prod.fst ++ [now]).Chain' (· ≤ ·)) :
    (((rate_limiter MAX W now c (runCalls MAX W pre emptyState)).2 c).Sorted (· ≤ ·)) ∧
    ((rate_limiter MAX W now c (runCalls MAX W pre emptyState)).2 c).length ≤ MAX ∧
    (∀ t ∈ (rate_limiter MAX W now c (runCalls MAX W pre emptyState)).2 c, now - W < t) ∧
    ((rate_limiter MAX W now c (runCalls MAX W pre emptyState)).1 = true ↔
      (((runCalls MAX W pre emptyState) c).filter (fun t => now - W < t)).length < MAX) := by
  have hInv : RLInv MAX now (runCalls MAX W pre emptyState) := by
    rcases pre with _ | ⟨⟨t₁, c₁⟩, rest⟩
    · exact RLInv.runCalls [] (RLInv.empty MAX now) hchain (by simp)
    · exact RLInv.runCalls ((t₁, c₁) :: rest) (RLInv.empty MAX t₁) hchain (by simp)
  rcases hInv c with ⟨hsort, hlen, hle⟩
  rw [rate_limiter_eq]
  split
  · rename_i hge
    simp only [Function.update_same]
    refine ⟨hsort.filter _, le_trans (List.length_filter_le _ _) hlen, ?_, ?_⟩
    · intro t ht
      simpa using (List.mem_filter.1 ht).2
    · constructor
      · intro hfalse
        cases hfalse
      · intro hlt
        omega
  · rename_i hlt
    push_neg at hlt
    simp only [Function.update_same]
    refine ⟨?_, ?_, ?_, ?_⟩
    · refine List.pairwise_append.2 ⟨hsort.filter _, List.sorted_singleton now, ?_⟩
      intro x hx y hy
      rw [List.mem_singleton] at hy
      subst hy
      exact hle x (List.mem_of_mem_filter hx)
    · rw [List.length_append, List.length_singleton]
      omega
    · intro t ht
      rcases List.mem_append.1 ht with ht | ht
      · have := (List.mem_filter.1 ht).2
        simpa using this
      · rw [List.mem_singleton] at ht
        subst ht
        linarith
    · exact iff_of_true trivial hlt

/-- C2 witness: the hypotheses of `claim_C2` discharged at `MAX_REQUESTS = 2`,
`WINDOW_SECONDS = 10`, prior calls at clock readings 0 and 1, and a current
call at reading 2. -/
theorem claim_C2_witness :
    (((rate_limiter 2 10 2 "x" (runCalls 2 10 [(0, "x"), (1, "x")] emptyState)).2 "x").Sorted
      (· ≤ ·)) ∧
    ((rate_limiter 2 10 2 "x" (runCalls 2 10 [(0, "x"), (1, "x")] emptyState)).2 "x").length ≤ 2 ∧
    (∀ t ∈ (rate_limiter 2 10 2 "x" (runCalls 2 10 [(0, "x"), (1, "x")] emptyState)).2 "x",
      (2:ℚ) - 10 < t) ∧
    ((rate_limiter 2 10 2 "x" (runCalls 2 10 [(0, "x"), (1, "x")] emptyState)).1 = true ↔
      (((runCalls 2 10 [(0, "x"), (1, "x")] emptyState) "x").filter
        (fun t => (2:ℚ) - 10 < t)).length < 2) :=
  claim_C2 2 10 [(0, "x"), (1, "x")] 2 "x" (by norm_num)
    (by norm_num [List.chain'_cons, List.chain'_singleton])

/-- C7: with `MAX_REQUESTS = 2` and `WINDOW_SECONDS = 10`, calls for one
client at clock readings 0 and 1 are admitted, a third call at reading 2 is
rejected, a call at reading 12 is admitted, and the client's retained list
afterwards is exactly `[12]`. -/
theorem claim_C7 :
    (runResults 2 10 [(0, "x"), (1, "x"), (2, "x"), (12, "x")] emptyState).1
        = [true, true, false, true] ∧
    (runResults 2 10 [(0, "x"), (1, "x"), (2, "x"), (12, "x")] emptyState).2 "x" = [12] := by
  constructor <;>
    norm_num [runResults, rate_limiter, emptyState, Function.update, List.filter]

/-- C9: a rejected `rate_limiter` call still prunes: it leaves the client's
list equal to exactly the previously recorded timestamps inside the window,
in their original order, appending nothing; and any call leaves every other
client's record unchanged. -/
theorem claim_C9 (MAX : ℕ) (W now : ℚ) (c : String) (s : RLState) :
    ((rate_limiter MAX W now c s).1 = false →
      (rate_limiter MAX W now c s).2 c = (s c).filter (fun t => now - W < t)) ∧
    (∀ c', c' ≠ c → (rate_limiter MAX W now c s).2 c' = s c') := by
  rw [rate_limiter_eq]
  split
  · exact ⟨fun _ => Function.update_same c _ s, fun c' hc' => Function.update_noteq hc' _ s⟩
  · refine ⟨fun hfalse => ?_, fun c' hc' => Function.update_noteq hc' _ s⟩
    cases hfalse

/-! ## Bus-stop queries: `src/controllers/bus_stop_controller.py`

The controller sends SQL to DuckDB over the parquet-backed `stops` view and
post-processes the rows in Python.  The table is modelled as a list of
`Stop` records, the SQL clauses (`WHERE`, `ORDER BY`, `LIMIT`, `OFFSET`,
the `UPPER` projection and the haversine `distance_m` expression) as the
corresponding list operations, and the Python post-filter and response
dictionaries verbatim. -/

/-- One row of the `stops` table. -/
structure Stop where
  stop_code : ℕ
  stop_name : String
  latitude : ℝ
  longitude : ℝ
  parent_station : Option ℕ

/-- A row of a nearby query: a stop augmented with its `distance_m`. -/
structure NearbyRow where
  stop_code : ℕ
  stop_name : String
  latitude : ℝ
  longitude : ℝ
  parent_station : Option ℕ
  distance_m : ℝ

/-- SQL `UPPER` (and Python `str.upper`), character by character. -/
def upperString (s : String) : String := ⟨s.data.map Char.toUpper⟩

/-- `stop_name ILIKE '%pattern%'` after both sides are upper-cased:
case-insensitive substring match. -/
def nameMatches (pattern name : String) : Bool :=
  decide ((upperString pattern).data <:+: (upperString name).data)

/-- `ORDER BY stop_code`. -/
def byCode (a b : Stop) : Prop := a.stop_code ≤ b.stop_code

instance : DecidableRel byCode :=
  fun a b => inferInstanceAs (Decidable (a.stop_code ≤ b.stop_code))

instance : IsTotal Stop byCode := ⟨fun a b => Nat.le_total a.stop_code b.stop_code⟩

instance : IsTrans Stop byCode := ⟨fun _ _ _ h1 h2 => le_trans h1 h2⟩

/-- `ORDER BY distance_m`. -/
def byDistance (a b : NearbyRow) : Prop := a.distance_m ≤ b.distance_m

noncomputable instance : DecidableRel byDistance :=
  fun a b => inferInstanceAs (Decidable (a.distance_m ≤ b.distance_m))

instance : IsTotal NearbyRow byDistance := ⟨fun a b => le_total a.distance_m b.distance_m⟩

instance : IsTrans NearbyRow byDistance := ⟨fun _ _ _ h1 h2 => le_trans h1 h2⟩

/-- The `SELECT` projection shared by the queries: `UPPER(stop_name)`,
other columns unchanged. -/
def selectUpper (s : Stop) : Stop := { s with stop_name := upperString s.stop_name }

/-- DuckDB `RADIANS`: degrees to radians. -/
noncomputable def radians (x : ℝ) : ℝ := x * (Real.pi / 180)

/-- The SQL `distance_m` expression of `get_nearby_by_name` /
`get_nearby_by_coords`:
`2 * 6371000 * ASIN(SQRT(POWER(SIN(RADIANS(lat - ?) / 2), 2) +
COS(RADIANS(?)) * COS(RADIANS(lat)) * POWER(SIN(RADIANS(lon - ?) / 2), 2)))`
with the parameters bound to the reference latitude (twice) and longitude. -/
noncomputable def sqlDistance (refLat refLon rowLat rowLon : ℝ) : ℝ :=
  2 * 6371000 * Real.arcsin (Real.sqrt
    ((Real.sin (radians (rowLat - refLat) / 2)) ^ 2 +
      Real.cos (radians refLat) * Real.cos (radians rowLat) *
        (Real.sin (radians (rowLon - refLon) / 2)) ^ 2))

/-- A candidate row of the nearby SQL: the projected stop with its
`distance_m` from the reference point. -/
noncomputable def toNearbyRow (refLat refLon : ℝ) (s : Stop) : NearbyRow :=
  { stop_code := s.stop_code
    stop_name := upperString s.stop_name
    latitude := s.latitude
    longitude := s.longitude
    parent_station := s.parent_station
    distance_m := sqlDistance refLat refLon s.latitude s.longitude }

/-- The nearby SQL of both endpoints: every row of `stops` with its distance
from the reference point, `ORDER BY distance_m LIMIT ?`. -/
noncomputable def nearbyQuery (stops : List Stop) (refLat refLon : ℝ) (lim : ℕ) :
    List NearbyRow :=
  ((stops.map (toNearbyRow refLat refLon)).insertionSort byDistance).take lim

/-- A `raise HTTPException(status_code=..., detail=...)`. -/
structure HttpError where
  status_code : ℕ
  detail : String

/-- The `{"count": ..., "results": ...}` response of `list_stops` and
`get_stop_by_code`. -/
structure ListResponse where
  count : ℕ
  results : List Stop

/-- `list_stops(limit, offset, name)`: optional case-insensitive name
filter, `ORDER BY stop_code LIMIT ? OFFSET ?` (skip `offset` rows, return up
to `limit`).  A `None` or empty `name` (falsy in Python) applies no filter. -/
def list_stops (stops : List Stop) (limit offset : ℕ) (name : Option String) :
    ListResponse :=
  let filtered := match name with
    | some n => if n ≠ "" then stops.filter (fun s : Stop => nameMatches n s.stop_name)
        else stops
    | none => stops
  let rows := (((filtered.insertionSort byCode).drop offset).take limit).map selectUpper
  { count := rows.length, results := rows }

/-- `get_stop_by_code(stop_code)`: all rows matching the code, or a 404
whose detail names the code. -/
def get_stop_by_code (stops : List Stop) (code : ℕ) : Except HttpError ListResponse :=
  let results := (stops.filter (fun s => s.stop_code = code)).map selectUpper
  if results.isEmpty then
    Except.error { status_code := 404, detail := "Stop Code " ++ toString code ++ " not found" }
  else
    Except.ok { count := results.length, results := results }

/-- The reference query of `get_nearby_by_name`:
`WHERE UPPER(stop_name) ILIKE '%' || UPPER(?) || '%' ORDER BY stop_code
LIMIT 1`, projected through `UPPER(stop_name)`. -/
def refQuery (stops : List Stop) (pattern : String) : Option Stop :=
  (((stops.filter (fun s => nameMatches pattern s.stop_name)).insertionSort
    byCode).head?).map selectUpper

/-- The response of `get_nearby_by_coords`. -/
structure CoordsResponse where
  reference_coords : ℝ × ℝ
  radius_m : ℝ
  count : ℕ
  results : List NearbyRow

/-- The response of `get_nearby_by_name`. -/
structure NameResponse where
  reference_stop : Stop
  radius_m : ℝ
  count : ℕ
  results : List NearbyRow

/-- `get_nearby_by_coords(lat, lon, radius_m, limit)`: the distance-ordered,
limit-truncated rows, then the Python radius post-filter
`st["distance_m"] <= radius_m`. -/
noncomputable def get_nearby_by_coords (stops : List Stop) (lat lon radius_m : ℝ)
    (lim : ℕ) : CoordsResponse :=
  let nearby := (nearbyQuery stops lat lon lim).filter
    (fun st => st.distance_m ≤ radius_m)
  { reference_coords := (lat, lon), radius_m := radius_m,
    count := nearby.length, results := nearby }

/-- `get_nearby_by_name(stop_name, radius_m, limit)`: resolve the reference
stop (the first match by `stop_code`), 404 if none matches, then the same
nearby query and radius post-filter around the reference coordinates. -/
noncomputable def get_nearby_by_name (stops : List Stop) (stop_name : String)
    (radius_m : ℝ) (lim : ℕ) : Except HttpError NameResponse :=
  match refQuery stops stop_name with
  | none => Except.error ⟨404, "No stop found with name like '" ++ stop_name ++ "'"⟩
  | some ref =>
    let nearby := (nearbyQuery stops ref.latitude ref.longitude lim).filter
      (fun st => st.distance_m ≤ radius_m)
    Except.ok ⟨ref, radius_m, nearby.length, nearby⟩

/-! ## Claims about the bus-stop queries -/

/-- `get_stop_by_code` with its local binding expanded, for case splitting. -/
theorem get_stop_by_code_eq (stops : List Stop) (code : ℕ) :
    get_stop_by_code stops code =
      if ((stops.filter (fun s => s.stop_code = code)).map selectUpper).isEmpty then
        Except.error ⟨404, "Stop Code " ++ toString code ++ " not found"⟩
      else
        Except.ok ⟨((stops.filter (fun s => s.stop_code = code)).map selectUpper).length,
          (stops.filter (fun s => s.stop_code = code)).map selectUpper⟩ :=
  rfl

/-- The head of the code-sorted list is a member of minimal `stop_code`. -/
theorem head_insertionSort_byCode {l : List Stop} {s₀ : Stop}
    (h : (l.insertionSort byCode).head? = some s₀) :
    s₀ ∈ l ∧ ∀ s ∈ l, s₀.stop_code ≤ s.stop_code := by
  have hperm := List.perm_insertionSort byCode l
  have hsorted := List.sorted_insertionSort byCode l
  rcases hl : l.insertionSort byCode with _ | ⟨a, rest⟩
  · rw [hl] at h
    cases h
  · rw [hl] at h
    rw [List.head?_cons] at h
    injection h with h
    subst h
    rw [hl] at hperm hsorted
    constructor
    · exact hperm.mem_iff.1 (List.mem_cons_self _ _)
    · intro s hs
      rcases List.mem_cons.1 (hperm.mem_iff.2 hs) with hs | hs
      · exact hs ▸ le_refl _
      · exact (List.sorted_cons.1 hsorted).1 s hs

/-- C4: `get_nearby_by_name` fails iff no row's name matches the pattern
case-insensitively as a substring, its failure is a 404 carrying the
original pattern text in the message, and on success the reference stop is
a matching row of minimal stop identifier (the first row ordered by
`stop_code` ascending), projected through `UPPER(stop_name)`; pattern
`"albert"` matches stored name `"STOP ALBERT ST"`. -/
theorem claim_C4 (stops : List Stop) (pat : String) (radius_m : ℝ) (lim : ℕ) :
    ((∃ e, get_nearby_by_name stops pat radius_m lim = Except.error e) ↔
      stops.filter (fun s => nameMatches pat s.stop_name) = []) ∧
    (∀ e, get_nearby_by_name stops pat radius_m lim = Except.error e →
      e.status_code = 404 ∧ pat.data <:+: e.detail.data) ∧
    (∀ resp, get_nearby_by_name stops pat radius_m lim = Except.ok resp →
      ∃ s₀, s₀ ∈ stops ∧ nameMatches pat s₀.stop_name = true ∧
        (∀ s ∈ stops, nameMatches pat s.stop_name = true → s₀.stop_code ≤ s.stop_code) ∧
        resp.reference_stop = selectUpper s₀) ∧
    nameMatches "albert" "STOP ALBERT ST" = true := by
  have hmatch : nameMatches "albert" "STOP ALBERT ST" = true := by decide
  refine ⟨?_, ?_, ?_, hmatch⟩
  · constructor
    · rintro ⟨e, he⟩
      unfold get_nearby_by_name at he
      rcases hr : refQuery stops pat with _ | ref
      · unfold refQuery at hr
        rcases hsort : (stops.filter (fun s => nameMatches pat s.stop_name)).insertionSort
            byCode with _ | ⟨a, rest⟩
        · have := (List.perm_insertionSort byCode
            (stops.filter (fun s => nameMatches pat s.stop_name))).symm.length_eq
          rw [hsort] at this
          exact List.length_eq_zero.1 (by simpa using this)
        · rw [hsort] at hr
          simp at hr
      · rw [hr] at he
        cases he
    · intro hnil
      refine ⟨⟨404, "No stop found with name like '" ++ pat ++ "'"⟩, ?_⟩
      unfold get_nearby_by_name refQuery
      rw [hnil]
      rfl
  · intro e he
    unfold get_nearby_by_name at he
    rcases hr : refQuery stops pat with _ | ref
    · rw [hr] at he
      injection he with he
      subst he
      refine ⟨rfl, ?_⟩
      refine ⟨"No stop found with name like '".data, "'".data, ?_⟩
      rw [← String.data_append, ← String.data_append]
    · rw [hr] at he
      cases he
  · intro resp hresp
    unfold get_nearby_by_name at hresp
    rcases hr : refQuery stops pat with _ | ref
    · rw [hr] at hresp
      cases hresp
    · rw [hr] at hresp
      injection hresp with hresp
      subst hresp
      unfold refQuery at hr
      rcases hh : ((stops.filter (fun s => nameMatches pat s.stop_name)).insertionSort
          byCode).head? with _ | s₀
      · rw [hh] at hr
        cases hr
      · rw [hh] at hr
        injection hr with hr
        rcases head_insertionSort_byCode hh with ⟨hmem, hmin⟩
        refine ⟨s₀, (List.mem_filter.1 hmem).1, (List.mem_filter.1 hmem).2, ?_, hr.symm⟩
        intro s hs hms
        exact hmin s (List.mem_filter.2 ⟨hs, hms⟩)

/-- C10: each of the four endpoint responses carries a `count` equal to the
length of its `results` list; for the nearby endpoints the count is taken
after the radius post-filter. -/
theorem claim_C10 (stops : List Stop) (limit offset : ℕ) (name : Option String)
    (code : ℕ) (lat lon radius_m : ℝ) (lim : ℕ) (pat : String) :
    ((list_stops stops limit offset name).count
      = (list_stops stops limit offset name).results.length) ∧
    (∀ resp, get_stop_by_code stops code = Except.ok resp →
      resp.count = resp.results.length) ∧
    ((get_nearby_by_coords stops lat lon radius_m lim).count
      = (get_nearby_by_coords stops lat lon radius_m lim).results.length) ∧
    ((get_nearby_by_coords stops lat lon radius_m lim).results
      = (nearbyQuery stops lat lon lim).filter (fun st => st.distance_m ≤ radius_m)) ∧
    (∀ resp, get_nearby_by_name stops pat radius_m lim = Except.ok resp →
      resp.count = resp.results.length) := by
  refine ⟨rfl, ?_, rfl, rfl, ?_⟩
  · intro resp h
    rw [get_stop_by_code_eq] at h
    split at h
    · cases h
    · injection h with h
      subst h
      rfl
  · intro resp h
    unfold get_nearby_by_name at h
    rcases hr : refQuery stops pat with _ | ref
    · rw [hr] at h
      cases h
    · rw [hr] at h
      injection h with h
      subst h
      rfl

/-! ### The haversine distance expression -/

theorem sqlDistance_self (lat lon : ℝ) : sqlDistance lat lon lat lon = 0 := by
  simp [sqlDistance, radians]

theorem sqlDistance_symm (aLat aLon bLat bLon : ℝ) :
    sqlDistance aLat aLon bLat bLon = sqlDistance bLat bLon aLat aLon := by
  unfold sqlDistance
  have h1 : ∀ x y : ℝ, (Real.sin (radians (x - y) / 2)) ^ 2
      = (Real.sin (radians (y - x) / 2)) ^ 2 := by
    intro x y
    have hneg : radians (x - y) / 2 = -(radians (y - x) / 2) := by
      unfold radians
      ring
    rw [hneg, Real.sin_neg, neg_sq]
  rw [h1 bLat aLat, h1 bLon aLon, mul_comm (Real.cos (radians aLat)) (Real.cos (radians bLat))]

theorem sqlDistance_nonneg (a b c d : ℝ) : 0 ≤ sqlDistance a b c d := by
  unfold sqlDistance
  have := Real.arcsin_nonneg.2 (Real.sqrt_nonneg
    ((Real.sin (radians (c - a) / 2)) ^ 2 +
      Real.cos (radians a) * Real.cos (radians c) *
        (Real.sin (radians (d - b) / 2)) ^ 2))
  positivity

theorem sqlDistance_one_degree (lat lon : ℝ) :
    |sqlDistance lat lon (lat + 1) lon - 111195| ≤ 1 := by
  have hpi := Real.pi_pos
  have heq : sqlDistance lat lon (lat + 1) lon = 2 * 6371000 * (Real.pi / 360) := by
    unfold sqlDistance
    rw [show lat + 1 - lat = 1 by ring, show lon - lon = 0 by ring]
    simp only [radians, one_mul, zero_mul, zero_div, Real.sin_zero, ne_eq,
      OfNat.ofNat_ne_zero, not_false_eq_true, zero_pow, mul_zero, add_zero]
    rw [show Real.pi / 180 / 2 = Real.pi / 360 by ring]
    rw [Real.sqrt_sq (Real.sin_nonneg_of_nonneg_of_le_pi (by positivity) (by linarith))]
    rw [Real.arcsin_sin (by linarith) (by linarith)]
  rw [heq, abs_le]
  constructor
  · have := Real.pi_gt_d6
    nlinarith
  · have := Real.pi_lt_d6
    nlinarith

/-- The spec's haversine formula, written as the spec words it:
`2 * R * asin(sqrt(sin²(dLat/2) + cos(latRef)*cos(latRow)*sin²(dLon/2)))`
with all angles converted from degrees to radians before the trigonometry,
`dLat = lat_row - lat_ref`, `dLon = lon_row - lon_ref`, `R = 6371000`. -/
noncomputable def haversineSpecFormula (refLatDeg refLonDeg rowLatDeg rowLonDeg : ℝ) : ℝ :=
  2 * 6371000 * Real.arcsin (Real.sqrt
    ((Real.sin ((radians rowLatDeg - radians refLatDeg) / 2)) ^ 2 +
      Real.cos (radians refLatDeg) * Real.cos (radians rowLatDeg) *
        (Real.sin ((radians rowLonDeg - radians refLonDeg) / 2)) ^ 2))

/-- The SQL expression (degree differences converted to radians) agrees with
the spec's formula (radian differences): degree-to-radian conversion is
linear. -/
theorem sqlDistance_eq_spec (a b c d : ℝ) :
    sqlDistance a b c d = haversineSpecFormula a b c d := by
  unfold sqlDistance haversineSpecFormula
  rw [show radians (c - a) = radians c - radians a by unfold radians; ring,
    show radians (d - b) = radians d - radians b by unfold radians; ring]

/-- Every row of a nearby query is a stop of the table augmented with its
distance from the reference point. -/
theorem mem_nearbyQuery {stops : List Stop} {refLat refLon : ℝ} {lim : ℕ}
    {st : NearbyRow} (h : st ∈ nearbyQuery stops refLat refLon lim) :
    ∃ s ∈ stops, st = toNearbyRow refLat refLon s := by
  unfold nearbyQuery at h
  have h1 : st ∈ (stops.map (toNearbyRow refLat refLon)).insertionSort byDistance :=
    (List.take_sublist _ _).subset h
  have h2 : st ∈ stops.map (toNearbyRow refLat refLon) :=
    (List.mem_insertionSort byDistance).1 h1
  rcases List.mem_map.1 h2 with ⟨s, hs, heq⟩
  exact ⟨s, hs, heq.symm⟩

/-- C8: the haversine distance used by the nearby queries is zero from any
point to itself, symmetric under swapping reference and row point, and for
two points one degree of latitude apart at the same longitude it is within
one meter of 111195 m. -/
theorem claim_C8 :
    (∀ lat lon : ℝ, sqlDistance lat lon lat lon = 0) ∧
    (∀ aLat aLon bLat bLon : ℝ,
      sqlDistance aLat aLon bLat bLon = sqlDistance bLat bLon aLat aLon) ∧
    (∀ lat lon : ℝ, |sqlDistance lat lon (lat + 1) lon - 111195| ≤ 1) :=
  ⟨sqlDistance_self, sqlDistance_symm, sqlDistance_one_degree⟩

/-- C5: the `distance_m` of every candidate row of both nearby queries is
the haversine great-circle distance of the spec's formula, evaluated against
the single reference point (the caller's coordinates, or the resolved
reference stop's). -/
theorem claim_C5 (stops : List Stop) (lat lon radius_m : ℝ) (lim : ℕ) (pat : String) :
    (∀ refLat refLon rowLat rowLon : ℝ,
      sqlDistance refLat refLon rowLat rowLon
        = haversineSpecFormula refLat refLon rowLat rowLon) ∧
    ((get_nearby_by_coords stops lat lon radius_m lim).results.Forall
      (fun st => st.distance_m = haversineSpecFormula lat lon st.latitude st.longitude)) ∧
    (match get_nearby_by_name stops pat radius_m lim with
      | Except.error _ => True
      | Except.ok resp => resp.results.Forall (fun st =>
          st.distance_m = haversineSpecFormula resp.reference_stop.latitude
            resp.reference_stop.longitude st.latitude st.longitude)) := by
  refine ⟨sqlDistance_eq_spec, ?_, ?_⟩
  · rw [List.forall_iff_forall_mem]
    intro st hst
    rcases mem_nearbyQuery (List.mem_of_mem_filter hst) with ⟨s, _, heq⟩
    subst heq
    exact sqlDistance_eq_spec lat lon s.latitude s.longitude
  · unfold get_nearby_by_name
    rcases hr : refQuery stops pat with _ | ref
    · exact trivial
    · dsimp only
      rw [List.forall_iff_forall_mem]
      intro st hst
      rcases mem_nearbyQuery (List.mem_of_mem_filter hst) with ⟨s, _, heq⟩
      subst heq
      exact sqlDistance_eq_spec ref.latitude ref.longitude s.latitude s.longitude

/-- The radius post-filter, for either nearby endpoint: membership is the
plain inclusive comparison, zero radius retains only exact-zero distances
(every computed distance is non-negative), negative radius retains nothing. -/
theorem radius_filter_spec (stops : List Stop) (a b radius_m : ℝ) (lim : ℕ) :
    (∀ st, st ∈ (nearbyQuery stops a b lim).filter (fun st => st.distance_m ≤ radius_m) ↔
      st ∈ nearbyQuery stops a b lim ∧ st.distance_m ≤ radius_m) ∧
    (radius_m = 0 →
      ((nearbyQuery stops a b lim).filter
        (fun st => st.distance_m ≤ radius_m)).Forall (fun st => st.distance_m = 0)) ∧
    (radius_m < 0 →
      (nearbyQuery stops a b lim).filter (fun st => st.distance_m ≤ radius_m) = []) := by
  have hnn : ∀ st ∈ nearbyQuery stops a b lim, 0 ≤ st.distance_m := by
    intro st hst
    rcases mem_nearbyQuery hst with ⟨s, _, heq⟩
    subst heq
    exact sqlDistance_nonneg a b s.latitude s.longitude
  refine ⟨?_, ?_, ?_⟩
  · intro st
    rw [List.mem_filter]
    simp
  · intro h0
    rw [List.forall_iff_forall_mem]
    intro st hst
    have hle : st.distance_m ≤ radius_m := by
      simpa using (List.mem_filter.1 hst).2
    exact le_antisymm (h0 ▸ hle) (hnn st (List.mem_of_mem_filter hst))
  · intro hneg
    rw [List.filter_eq_nil_iff]
    intro st hst
    simp only [decide_eq_true_eq]
    intro hle
    exact absurd (lt_of_le_of_lt hle hneg) (not_lt.2 (hnn st hst))

/-- C3: in both nearby endpoints a store row is kept iff its computed
`distance_m` is at most `radius_m` (inclusive boundary); with `radius_m = 0`
only exact-zero distances survive, and with `radius_m < 0` nothing survives,
for any input. -/
theorem claim_C3 (stops : List Stop) (lat lon radius_m : ℝ) (lim : ℕ) (pat : String) :
    (∀ st, st ∈ (get_nearby_by_coords stops lat lon radius_m lim).results ↔
      st ∈ nearbyQuery stops lat lon lim ∧ st.distance_m ≤ radius_m) ∧
    (radius_m = 0 → (get_nearby_by_coords stops lat lon radius_m lim).results.Forall
      (fun st => st.distance_m = 0)) ∧
    (radius_m < 0 → (get_nearby_by_coords stops lat lon radius_m lim).results = []) ∧
    (∀ resp, get_nearby_by_name stops pat radius_m lim = Except.ok resp →
      (∀ st, st ∈ resp.results ↔
        st ∈ nearbyQuery stops resp.reference_stop.latitude
          resp.reference_stop.longitude lim ∧ st.distance_m ≤ radius_m) ∧
      (radius_m = 0 → resp.results.Forall (fun st => st.distance_m = 0)) ∧
      (radius_m < 0 → resp.results = [])) := by
  rcases radius_filter_spec stops lat lon radius_m lim with ⟨hmem, hzero, hneg⟩
  refine ⟨hmem, hzero, hneg, ?_⟩
  intro resp hresp
  unfold get_nearby_by_name at hresp
  rcases hr : refQuery stops pat with _ | ref
  · rw [hr] at hresp
    cases hresp
  · rw [hr] at hresp
    injection hresp with hresp
    subst hresp
    rcases radius_filter_spec stops ref.latitude ref.longitude radius_m lim with
      ⟨hmem', hzero', hneg'⟩
    exact ⟨hmem', hzero', hneg'⟩

/-! ### Ordering, truncation and the post-filter (C6) -/

/-- In a distance-sorted candidate list, if any row beyond the `lim`-cutoff
is within the radius, then every row inside the cutoff is too: the filter
keeps the whole truncated list, whose length is exactly `lim`. -/
theorem take_all_in_radius {l : List NearbyRow} {radius : ℝ} {lim : ℕ} {st : NearbyRow}
    (hs : l.Sorted byDistance) (hmem : st ∈ l.drop lim) (hle : st.distance_m ≤ radius) :
    (l.take lim).filter (fun r => r.distance_m ≤ radius) = l.take lim ∧
    (l.take lim).length = lim := by
  have hsplit : l.take lim ++ l.drop lim = l := List.take_append_drop lim l
  have hs' : (l.take lim ++ l.drop lim).Pairwise byDistance := by
    rw [hsplit]
    exact hs
  have hpw := (List.pairwise_append.1 hs').2.2
  constructor
  · apply List.filter_eq_self.2
    intro r hr
    simp only [decide_eq_true_eq]
    exact le_trans (hpw r hr st hmem) hle
  · have hne : l.drop lim ≠ [] := List.ne_nil_of_mem hmem
    have hlen : lim ≤ l.length := by
      by_contra hc
      exact hne (List.drop_eq_nil_of_le (by omega))
    rw [List.length_take]
    omega

/-- A three-stop table on the equator: reference stop at longitude 0 and
stops one and two degrees of longitude away, with pairwise distances of
roughly 0, 111 km and 222 km. -/
def demoStops : List Stop :=
  [⟨1, "A", 0, 0, none⟩, ⟨2, "B", 0, 1, none⟩, ⟨3, "C", 0, 2, none⟩]

/-- The SQL distance from the origin to an equatorial point at longitude
`lon` degrees, in closed form. -/
theorem sqlDistance_equator {lon : ℝ} (h0 : 0 ≤ lon) (h180 : lon ≤ 180) :
    sqlDistance 0 0 0 lon = 2 * 6371000 * (lon * (Real.pi / 180) / 2) := by
  have hpi := Real.pi_pos
  unfold sqlDistance
  rw [show (0:ℝ) - 0 = 0 by ring, show lon - 0 = lon by ring]
  simp only [radians, zero_mul, zero_div, Real.sin_zero, ne_eq, OfNat.ofNat_ne_zero,
    not_false_eq_true, zero_pow, Real.cos_zero, one_mul, zero_add]
  rw [Real.sqrt_sq (Real.sin_nonneg_of_nonneg_of_le_pi (by nlinarith) (by nlinarith))]
  rw [Real.arcsin_sin (by nlinarith) (by nlinarith)]

/-- With `limit = 2` and `radius_m = 250000`, the demo table returns its two
closest rows although all three rows are in radius: the third in-radius row
sits beyond the cutoff and is silently omitted, while the result's length
equals the limit. -/
theorem demo_under_return :
    (get_nearby_by_coords demoStops 0 0 250000 2).results.length = 2 ∧
    ((demoStops.map (toNearbyRow 0 0)).filter
      (fun st => st.distance_m ≤ 250000)).length = 3 := by
  have hpi := Real.pi_pos
  have hlt := Real.pi_lt_d6
  have e0 : sqlDistance 0 0 0 0 = 0 := sqlDistance_self 0 0
  have e1 : sqlDistance 0 0 0 1 = 2 * 6371000 * (1 * (Real.pi / 180) / 2) :=
    sqlDistance_equator (by norm_num) (by norm_num)
  have e2 : sqlDistance 0 0 0 2 = 2 * 6371000 * (2 * (Real.pi / 180) / 2) :=
    sqlDistance_equator (by norm_num) (by norm_num)
  have h01 : sqlDistance 0 0 0 0 ≤ sqlDistance 0 0 0 1 := by
    rw [e0, e1]
    nlinarith
  have h12 : sqlDistance 0 0 0 1 ≤ sqlDistance 0 0 0 2 := by
    rw [e1, e2]
    nlinarith
  have hb0 : sqlDistance 0 0 0 0 ≤ 250000 := by
    rw [e0]
    norm_num
  have hb1 : sqlDistance 0 0 0 1 ≤ 250000 := by
    rw [e1]
    nlinarith
  have hb2 : sqlDistance 0 0 0 2 ≤ 250000 := by
    rw [e2]
    nlinarith
  constructor
  · simp only [get_nearby_by_coords, nearbyQuery, demoStops, List.map,
      List.insertionSort, List.orderedInsert, byDistance, toNearbyRow]
    rw [if_pos h12]
    simp only [List.orderedInsert, byDistance]
    rw [if_pos h01]
    simp only [List.take, List.filter]
    rw [decide_eq_true hb0, decide_eq_true hb1]
    rfl
  · simp only [demoStops, List.map, toNearbyRow, List.filter]
    rw [decide_eq_true hb0, decide_eq_true hb1, decide_eq_true hb2]
    rfl

/-- C6 counterexample: the claimed co-occurrence — a returned list shorter
than `limit` while an in-radius row lies beyond the `limit`-th-closest row —
is impossible: the candidates are distance-sorted, so an in-radius row
beyond the cutoff forces every row inside the cutoff to be in radius, and
the result then has length exactly `limit`. -/
theorem claim_C6_counterexample :
    (∃ (stops : List Stop) (lat lon radius_m : ℝ) (lim : ℕ) (st : NearbyRow),
      st ∈ ((stops.map (toNearbyRow lat lon)).insertionSort byDistance).drop lim ∧
      st.distance_m ≤ radius_m ∧
      (get_nearby_by_coords stops lat lon radius_m lim).results.length < lim) ↔ False := by
  apply iff_false_intro
  rintro ⟨stops, lat, lon, radius_m, lim, st, h1, h2, h3⟩
  rcases take_all_in_radius (List.sorted_insertionSort byDistance
    (stops.map (toNearbyRow lat lon))) h1 h2 with ⟨hfeq, hlen⟩
  have hres : (get_nearby_by_coords stops lat lon radius_m lim).results
      = (((stops.map (toNearbyRow lat lon)).insertionSort byDistance).take lim).filter
          (fun r => r.distance_m ≤ radius_m) := rfl
  rw [hres, hfeq, hlen] at h3
  omega

/-- C6 (amended): both nearby queries rank all rows by ascending
`distance_m`, truncate to `limit`, and only then apply the radius filter;
the returned list is distance-ascending and has length at most `limit`; it
can omit in-radius rows beyond the `limit`-th-closest row (under-return, as
the demo table shows), but whenever such an omitted in-radius row exists the
filter keeps the whole truncated list, so the result then has length exactly
`limit` — never less. -/
theorem claim_C6 (stops : List Stop) (lat lon radius_m : ℝ) (lim : ℕ) (pat : String) :
    ((get_nearby_by_coords stops lat lon radius_m lim).results
      = (((stops.map (toNearbyRow lat lon)).insertionSort byDistance).take lim).filter
          (fun st => st.distance_m ≤ radius_m)) ∧
    ((get_nearby_by_coords stops lat lon radius_m lim).results.Sorted byDistance) ∧
    ((get_nearby_by_coords stops lat lon radius_m lim).results.length ≤ lim) ∧
    (∀ st, st ∈ ((stops.map (toNearbyRow lat lon)).insertionSort byDistance).drop lim →
      st.distance_m ≤ radius_m →
      (get_nearby_by_coords stops lat lon radius_m lim).results.length = lim) ∧
    (∀ resp, get_nearby_by_name stops pat radius_m lim = Except.ok resp →
      resp.results.Sorted byDistance ∧ resp.results.length ≤ lim) ∧
    ((get_nearby_by_coords demoStops 0 0 250000 2).results.length = 2 ∧
      ((demoStops.map (toNearbyRow 0 0)).filter
        (fun st => st.distance_m ≤ 250000)).length = 3) := by
  have hsorted : ∀ (a b : ℝ),
      ((nearbyQuery stops a b lim).filter
        (fun st => st.distance_m ≤ radius_m)).Sorted byDistance := by
    intro a b
    exact ((List.sorted_insertionSort byDistance
      (stops.map (toNearbyRow a b))).sublist (List.take_sublist _ _)).filter _
  have hbound : ∀ (a b : ℝ),
      ((nearbyQuery stops a b lim).filter
        (fun st => st.distance_m ≤ radius_m)).length ≤ lim := by
    intro a b
    exact le_trans (List.length_filter_le _ _) (List.length_take_le _ _)
  refine ⟨rfl, hsorted lat lon, hbound lat lon, ?_, ?_, demo_under_return⟩
  · intro st h1 h2
    rcases take_all_in_radius (List.sorted_insertionSort byDistance
      (stops.map (toNearbyRow lat lon))) h1 h2 with ⟨hfeq, hlen⟩
    have hres : (get_nearby_by_coords stops lat lon radius_m lim).results
        = (((stops.map (toNearbyRow lat lon)).insertionSort byDistance).take lim).filter
            (fun r => r.distance_m ≤ radius_m) := rfl
    rw [hres, hfeq, hlen]
  · intro resp hresp
    unfold get_nearby_by_name at hresp
    rcases hr : refQuery stops pat with _ | ref
    · rw [hr] at hresp
      cases hresp
    · rw [hr] at hresp
      injection hresp with hresp
      subst hresp
      exact ⟨hsorted ref.latitude ref.longitude, hbound ref.latitude ref.longitude⟩

end BusStopApi
